import Mathlib

/-
Verification of the Chinese Postman (route inspection) solver of this
repository against its specification.  The definitions below are a shallow
embedding of src/thor/chinese_postman_action.cc; the parts of the repository
that the action file uses but whose sources are not present here
(thor/chinese_postman_graph.h and the avoid_polygons request validation) are
modelled from the specification and say so in their doc comments.
-/

set_option maxHeartbeats 1000000

namespace ValhallaCP

/-- Identifier of a node or an edge within the tiled hierarchical graph
(baldr::GraphId from baldr/graphid.h): a single 64-bit value. -/
structure GraphId where
  value : Nat
deriving DecidableEq

/-- Modelled from the spec: the default-constructed GraphId used by the
materializer's edge supplier as its end sentinel, described by the spec as
"an end sentinel when exhausted" and by the claim as "an invalid/default
GraphId" (the header only declares the default constructor and Is_Valid).
The concrete constant is immaterial to the theorems below. -/
def GraphId.invalid : GraphId := ⟨0x3fffffffffff⟩

/-- Geographic point (midgard::PointLL); coordinates are modelled as
rationals, since the solver only moves them around. -/
structure PointLL where
  lng : Rat
  lat : Rat
deriving DecidableEq

/-- One candidate path edge attached to a correlated location: the edge id
and the fractional position along it (Location::PathEdge, the two fields
read by find_percent_along). -/
structure PathEdge where
  graph_id : GraphId
  percent_along : Rat
deriving DecidableEq

/-- A correlated request location (valhalla::Location): its coordinate and
its candidate path edges, the fields chinese_postman and buildPath read. -/
structure Location where
  ll : PointLL
  path_edges : List PathEdge
deriving DecidableEq

/-- sif::Cost — the seconds and cost components, modelled as rationals. -/
structure Cost where
  secs : Rat
  cost : Rat
deriving DecidableEq

/-- sif::EdgeLabel as consumed by buildPath's label callback: exactly the
fields the callback reads. -/
structure EdgeLabel where
  mode : Nat
  cost : Cost
  edgeid : GraphId
  restriction_idx : Nat
  transition_cost : Cost
deriving DecidableEq

/-- thor::PathInfo as constructed by buildPath's label callback
(chinese_postman_action.cc lines 96-99). -/
structure PathInfo where
  mode : Nat
  elapsed_cost : Cost
  edgeid : GraphId
  trip_id : Nat
  restriction_idx : Nat
  transition_cost : Cost
  recovered : Bool
deriving DecidableEq

/-- buildPath's local set of edges recovered from shortcuts
(chinese_postman_action.cc line 86); it is created empty and nothing in
buildPath ever inserts into it. -/
def recovered_inner_edges : List GraphId := []

/-- The label callback of buildPath (lines 96-99): turns one recosted label
into the PathInfo appended to the path. -/
def label_cb (label : EdgeLabel) : PathInfo :=
  ⟨label.mode, label.cost, label.edgeid, 0, label.restriction_idx,
   label.transition_cost, decide (label.edgeid ∈ recovered_inner_edges)⟩

/-- find_percent_along (lines 62-68): the percent_along of the first
candidate path edge of the location whose graph id equals edge_id.  The C++
throws std::logic_error when no candidate matches; that exceptional exit is
modelled as none. -/
def find_percent_along (location : Location) (edge_id : GraphId) : Option Rat :=
  (location.path_edges.find? (fun e => e.graph_id == edge_id)).map
    (fun e => e.percent_along)

/-- The pull-style edge supplier edge_cb of buildPath (lines 91-94):
`(edge_itr == path_edges.end()) ? GraphId\x7b\x7d : (*edge_itr++)`.
The iterator is modelled as an index into path_edges; one call returns the
yielded id together with the iterator's new position. -/
def edge_cb (path_edges : List GraphId) (edge_itr : Nat) : GraphId × Nat :=
  if edge_itr = path_edges.length then (GraphId.invalid, edge_itr)
  else (path_edges.getD edge_itr GraphId.invalid, edge_itr + 1)

/-- Iterated calls of the edge supplier starting from the iterator at
position 0 (`auto edge_itr = path_edges.begin()`): the iterator position
after n calls and the list of ids the n calls yielded, in order. -/
def edge_cb_run (path_edges : List GraphId) : Nat → Nat × List GraphId
  | 0 => (0, [])
  | Nat.succ n =>
    let r := edge_cb_run path_edges n
    let c := edge_cb path_edges r.1
    (c.2, r.2 ++ [c.1])

/-- The failure modes of buildPath in a total embedding: the unguarded
vector front/back accesses on an empty edge sequence (undefined behaviour
in the C++), and the two std::logic_error rethrown around
find_percent_along (lines 101-111). -/
inductive BuildPathError where
  | vectorFrontOnEmpty
  | vectorBackOnEmpty
  | originCandidateMissing
  | destinationCandidateMissing
deriving DecidableEq

/-- What a completed run of buildPath leaves behind: the PathInfo list
accumulated by the label callback (printed out at lines 121-124), and
whether a recost failure was logged (the LOG_ERROR in the catch around
recost_forward, lines 117-119). -/
structure BuildPathResult where
  path : List PathInfo
  recostLogged : Bool
deriving DecidableEq

/-- buildPath (lines 70-125).  The graph reader, options, time info,
invariance flag and costing are opaque handles passed through unchanged to
sif::recost_forward; they are modelled as already bound inside the
recost_forward argument.  That argument returns the labels the external
recost service delivered to the label callback before returning or raising,
together with a success flag (false when the service raised).  The catch
around recost_forward only logs the failure; buildPath then falls through
and emits whatever path was accumulated. -/
def buildPath (origin dest : Location) (path_edges : List GraphId)
    (recost_forward : List GraphId → Rat → Rat → List EdgeLabel × Bool) :
    Except BuildPathError BuildPathResult :=
  match path_edges.head? with
  | none => .error .vectorFrontOnEmpty
  | some frontEdge =>
    match find_percent_along origin frontEdge with
    | none => .error .originCandidateMissing
    | some source_pct =>
      match path_edges.getLast? with
      | none => .error .vectorBackOnEmpty
      | some backEdge =>
        match find_percent_along dest backEdge with
        | none => .error .destinationCandidateMissing
        | some target_pct =>
          let r := recost_forward path_edges source_pct target_pct
          .ok ⟨r.1.map label_cb, !r.2⟩

/-- A vertex of the Chinese postman multigraph, wrapping the underlying
node id.  Modelled from the spec (thor/chinese_postman_graph.h is not among
the sources): "Vertex: opaque node identifier (from the underlying
graph)". -/
structure CPVertex where
  graph_id : GraphId
deriving DecidableEq

/-- Modelled from the spec: the default-constructed CPVertex, the value
originVertex holds when no candidate segment survives the filters. -/
def CPVertex.default : CPVertex := ⟨GraphId.invalid⟩

/-- An edge payload of the multigraph: a traversal cost and the segment id
(CPEdge as constructed at line 203). -/
structure CPEdge where
  cost : Cost
  graph_id : GraphId
deriving DecidableEq

/-- The Chinese postman multigraph.  Modelled from the spec
(chinese_postman_graph.h is not among the sources): a set of vertices
unique by id plus a multiset of directed edges; stored here as lists in
insertion order, which also supplies the deterministic iteration order the
spec requires. -/
structure ChinesePostmanGraph where
  vertices : List CPVertex
  edges : List (CPVertex × CPVertex × CPEdge)
deriving DecidableEq

def ChinesePostmanGraph.empty : ChinesePostmanGraph := ⟨[], []⟩

/-- Modelled from the spec: "addVertex(id) -> VertexHandle (idempotent
upsert)" — re-adding an existing vertex is a no-op. -/
def ChinesePostmanGraph.addVertex (g : ChinesePostmanGraph) (v : CPVertex) :
    ChinesePostmanGraph :=
  if v ∈ g.vertices then g else ⟨g.vertices ++ [v], g.edges⟩

/-- Modelled from the spec: "addEdge(sourceId, targetId, segmentId, cost)
... stores the edge"; parallel edges and self-loops are permitted, so the
edge is appended to the multiset.  (The caller in chinese_postman always
adds both endpoints with addVertex right before calling addEdge.) -/
def ChinesePostmanGraph.addEdge (g : ChinesePostmanGraph)
    (s t : CPVertex) (e : CPEdge) : ChinesePostmanGraph :=
  ⟨g.vertices, g.edges ++ [(s, t, e)]⟩

def ChinesePostmanGraph.numVertices (g : ChinesePostmanGraph) : Nat :=
  g.vertices.length

def ChinesePostmanGraph.numEdges (g : ChinesePostmanGraph) : Nat :=
  g.edges.length

/-- Modelled from the spec: a vertex's balance is its outgoing-edge count
minus its incoming-edge count. -/
def ChinesePostmanGraph.balance (g : ChinesePostmanGraph) (v : CPVertex) : Int :=
  ((g.edges.filter (fun e => e.1 == v)).length : Int) -
    ((g.edges.filter (fun e => e.2.1 == v)).length : Int)

/-- Modelled from the spec: "unbalancedVertices() -> mapping VertexId ->
balance (only nonzero entries, iteration order must be deterministic)" —
the nonzero-balance vertices in the deterministic insertion order of the
vertex store, each paired with its balance. -/
def ChinesePostmanGraph.getUnbalancedVertices (g : ChinesePostmanGraph) :
    List (GraphId × Int) :=
  (g.vertices.filter (fun v => g.balance v != 0)).map
    (fun v => (v.graph_id, g.balance v))

/-- One candidate segment as consumed by the construction loop (lines
179-205): its id, whether the reader's directed edge is forward-traversable
(reader->directededge(id)->forward()), and its endpoint nodes
(reader->edge_startnode / edge_endnode).  The three reader lookups are
graph-storage reads, resolved here per candidate. -/
structure CandidateEdge where
  id : GraphId
  forward : Bool
  start_node : GraphId
  end_node : GraphId
deriving DecidableEq

/-- The two filter checks of the construction loop, as a predicate: a
candidate survives when it is forward-traversable and its id is not in the
avoid set. -/
def passesFilters (avoid_edge_ids : List GraphId) (edge : CandidateEdge) : Bool :=
  edge.forward && !(decide (edge.id ∈ avoid_edge_ids))

/-- The multigraph entry one surviving candidate contributes (lines
189-204): a directed edge from its start node to its end node carrying
Cost(1, 1) and the segment id. -/
def edgeEntry (edge : CandidateEdge) : CPVertex × CPVertex × CPEdge :=
  (⟨edge.start_node⟩, ⟨edge.end_node⟩, ⟨⟨1, 1⟩, edge.id⟩)

/-- The running state of the construction loop: the multigraph under
construction and the originNodeFound / originVertex pair (lines 175-176). -/
structure BuildState where
  g : ChinesePostmanGraph
  originNodeFound : Bool
  originVertex : CPVertex
deriving DecidableEq

/-- One iteration of the construction loop (lines 179-205): skip the
candidate if it is not forward-traversable; skip it if its id is in the
avoid set (the C++ compares std::to_string(GraphId(id)) renderings, an
injective rendering of the id, modelled as id membership); otherwise record
the first surviving start node as the origin vertex, add both endpoints as
vertices and add one directed edge from start to end. -/
def buildStep (avoid_edge_ids : List GraphId) (st : BuildState)
    (edge : CandidateEdge) : BuildState :=
  if !edge.forward then st
  else if edge.id ∈ avoid_edge_ids then st
  else
    let start_vertex : CPVertex := ⟨edge.start_node⟩
    let end_vertex : CPVertex := ⟨edge.end_node⟩
    let originVertex := if !st.originNodeFound then start_vertex else st.originVertex
    let g := ((st.g.addVertex start_vertex).addVertex end_vertex).addEdge
      start_vertex end_vertex ⟨⟨1, 1⟩, edge.id⟩
    ⟨g, true, originVertex⟩

/-- The whole construction loop, fed with the candidate segments
(co->chinese_edges()) and the avoided segment ids (co->avoid_edges());
originNodeFound starts false and originVertex default-constructed. -/
def buildGraph (avoid_edge_ids : List GraphId)
    (chinese_edges : List CandidateEdge) : BuildState :=
  chinese_edges.foldl (buildStep avoid_edge_ids)
    ⟨ChinesePostmanGraph.empty, false, CPVertex.default⟩

/-- Lines 144-151 of chinese_postman:
`auto it = correlated.begin(); auto origin = &it; it++; auto destination = &it;`
— origin and destination are both pointers to the single iterator variable
it, which is advanced once before either pointer is dereferenced, so both
dereferences (lines 150-151) read the element at index 1.  Dereferencing
past the end (fewer than two locations) is undefined behaviour in the C++
and is modelled as none. -/
def selectLocations (correlated : List Location) : Option (Location × Location) :=
  let it : Nat := 0
  let it := it + 1
  match correlated[it]?, correlated[it]? with
  | some originLocation, some destinationLocation =>
    some (originLocation, destinationLocation)
  | _, _ => none

/-- One iteration of the unbalanced-vertex loop (lines 223-232): look the
vertex up with getPointLL, push the point into overPoints when its balance
is positive, into underPoints when negative. -/
def partitionStep (getPointLL : GraphId → PointLL)
    (acc : List PointLL × List PointLL) (v : GraphId × Int) :
    List PointLL × List PointLL :=
  let l := getPointLL v.1
  if 0 < v.2 then (acc.1 ++ [l], acc.2)
  else if v.2 < 0 then (acc.1, acc.2 ++ [l])
  else acc

/-- The unbalanced-vertex loop over getUnbalancedVertices, producing
(overPoints, underPoints). -/
def partitionUnbalanced (unb : List (GraphId × Int))
    (getPointLL : GraphId → PointLL) : List PointLL × List PointLL :=
  unb.foldl (partitionStep getPointLL) ([], [])

/-- computeFloydWarshall (lines 127-138): builds a sources_to_targets
request from the given source and target points and returns the external
matrix service's output.  The JSON marshalling, ParseApi and the matrix
engine itself are external collaborators, modelled inside the matrix
handle. -/
def computeFloydWarshall (matrix : List PointLL → List PointLL → String)
    (sources targets : List PointLL) : String :=
  matrix sources targets

/-- The outcome of one chinese_postman solve: either the balanced branch's
circuit and materialization result, or the unbalanced branch's diagnostic
matrix output together with the source and target point lists it was
computed between. -/
inductive CPOutcome where
  | pathResult (circuit : List GraphId) (result : Except BuildPathError BuildPathResult)
  | matrixResult (sources targets : List PointLL) (output : String)

/-- thor_worker_t::chinese_postman (lines 140-236).  The request has been
reduced to the data the function reads: the correlated locations, the
avoided segment ids, the candidate segments (with their reader lookups
resolved), and handles for the external collaborators — getPointLL,
computeIdealEulerCycle (the circuit builder of the graph class, whose
source is not present here), the matrix service and the recost service.
none models the undefined behaviour of dereferencing past the end of a
request with fewer than two locations. -/
def chinese_postman (correlated : List Location)
    (avoid_edge_ids : List GraphId) (chinese_edges : List CandidateEdge)
    (getPointLL : GraphId → PointLL)
    (computeIdealEulerCycle : ChinesePostmanGraph → CPVertex → List GraphId)
    (matrix : List PointLL → List PointLL → String)
    (recost_forward : List GraphId → Rat → Rat → List EdgeLabel × Bool) :
    Option CPOutcome :=
  match selectLocations correlated with
  | none => none
  | some (originLocation, destinationLocation) =>
    let st := buildGraph avoid_edge_ids chinese_edges
    if st.g.getUnbalancedVertices.length = 0 then
      let edgeGraphIds := computeIdealEulerCycle st.g st.originVertex
      some (.pathResult edgeGraphIds
        (buildPath originLocation destinationLocation edgeGraphIds recost_forward))
    else
      let ou := partitionUnbalanced st.g.getUnbalancedVertices getPointLL
      some (.matrixResult ou.1 ou.2 (computeFloydWarshall matrix ou.1 ou.2))

/-- A structured valhalla error carrying a numeric code. -/
structure valhalla_exception_t where
  code : Nat
deriving DecidableEq

/-- Modelled from the spec: the avoid_polygons size-limit validation that
runs before graph construction.  It lives outside these sources — only the
test fixture configuring service_limits.max_avoid_polygons_length and
expecting error code 450 is present — and the spec says "a structured error
with a numeric code (e.g., 450) when the excluded-region specification
exceeds configured size/complexity limits, raised before graph construction
begins".  The total ring length computation is geometric and external; it
enters as total_length. -/
def check_avoid_polygons_length (max_length total_length : Rat) :
    Except valhalla_exception_t Unit :=
  if max_length < total_length then .error ⟨450⟩ else .ok ()

/-- The request pipeline around chinese_postman: the avoid_polygons limit
check runs first, and only when it passes does the solve proper run. -/
def chinese_postman_request (max_length total_length : Rat)
    (correlated : List Location) (avoid_edge_ids : List GraphId)
    (chinese_edges : List CandidateEdge) (getPointLL : GraphId → PointLL)
    (computeIdealEulerCycle : ChinesePostmanGraph → CPVertex → List GraphId)
    (matrix : List PointLL → List PointLL → String)
    (recost_forward : List GraphId → Rat → Rat → List EdgeLabel × Bool) :
    Except valhalla_exception_t (Option CPOutcome) :=
  match check_avoid_polygons_length max_length total_length with
  | .error e => .error e
  | .ok _ => .ok (chinese_postman correlated avoid_edge_ids chinese_edges
      getPointLL computeIdealEulerCycle matrix recost_forward)

/- Concrete data used by the witnesses and counterexamples below. -/

def gid1 : GraphId := ⟨1⟩
def gid2 : GraphId := ⟨2⟩
def gid3 : GraphId := ⟨3⟩
def gidA : GraphId := ⟨10⟩
def gidB : GraphId := ⟨11⟩

def exPoint : PointLL := ⟨0, 0⟩

/-- A location whose only candidate path edge is gid1. -/
def exLocA : Location := ⟨⟨1, 1⟩, [⟨gid1, 0⟩]⟩

/-- A location with candidate path edges for gid1 and gid2. -/
def exLocB : Location := ⟨⟨2, 2⟩, [⟨gid1, 0⟩, ⟨gid2, 1⟩]⟩

def exLabel1 : EdgeLabel := ⟨0, ⟨1, 1⟩, gid1, 0, ⟨0, 0⟩⟩

/-- A recost handle modelling a service that delivers one label and then
raises. -/
def exRecostFail : List GraphId → Rat → Rat → List EdgeLabel × Bool :=
  fun _ _ _ => ([exLabel1], false)

/-- A recost handle modelling a service that succeeds delivering no
labels. -/
def exRecostOk : List GraphId → Rat → Rat → List EdgeLabel × Bool :=
  fun _ _ _ => ([], true)

def exN2P : GraphId → PointLL := fun _ => exPoint

def exEuler : ChinesePostmanGraph → CPVertex → List GraphId := fun _ _ => [gid1]

def exMatrix : List PointLL → List PointLL → String := fun _ _ => "M"

/-- A candidate that survives both filters. -/
def exCand1 : CandidateEdge := ⟨gid1, true, gidA, gidB⟩

/-- A candidate whose id is in the avoid set below. -/
def exCand2 : CandidateEdge := ⟨gid2, true, gidA, gidB⟩

/-- A candidate that is not forward-traversable. -/
def exCand3 : CandidateEdge := ⟨gid3, false, gidA, gidB⟩

def exAvoid : List GraphId := [gid2]

def exCandidates : List CandidateEdge := [exCand1, exCand2, exCand3]

/- Theorems. -/

theorem addVertex_edges (g : ChinesePostmanGraph) (v : CPVertex) :
    (g.addVertex v).edges = g.edges := by
  unfold ChinesePostmanGraph.addVertex
  split <;> rfl

theorem addEdge_vertices (g : ChinesePostmanGraph) (s t : CPVertex) (e : CPEdge) :
    (g.addEdge s t e).vertices = g.vertices := rfl

theorem addVertex_vertices_subset (g : ChinesePostmanGraph) (v w : CPVertex)
    (h : w ∈ g.vertices) : w ∈ (g.addVertex v).vertices := by
  unfold ChinesePostmanGraph.addVertex
  split
  · exact h
  · exact List.mem_append_left _ h

theorem addVertex_mem_self (g : ChinesePostmanGraph) (v : CPVertex) :
    v ∈ (g.addVertex v).vertices := by
  unfold ChinesePostmanGraph.addVertex
  split
  · assumption
  · exact List.mem_append_right _ (List.mem_singleton.mpr rfl)

theorem buildStep_edges (avoid : List GraphId) (st : BuildState) (e : CandidateEdge) :
    (buildStep avoid st e).g.edges =
      st.g.edges ++ (if passesFilters avoid e then [edgeEntry e] else []) := by
  unfold buildStep passesFilters edgeEntry
  by_cases hf : e.forward
  · by_cases ha : e.id ∈ avoid
    · simp [hf, ha]
    · simp [hf, ha, ChinesePostmanGraph.addEdge, addVertex_edges]
  · simp [hf]

theorem buildGraph_edges_aux (avoid : List GraphId) :
    ∀ (cs : List CandidateEdge) (st : BuildState),
      (cs.foldl (buildStep avoid) st).g.edges =
        st.g.edges ++ (cs.filter (passesFilters avoid)).map edgeEntry := by
  intro cs
  induction cs with
  | nil => intro st; simp
  | cons e cs ih =>
    intro st
    rw [List.foldl_cons, ih, buildStep_edges, List.filter_cons]
    by_cases hp : passesFilters avoid e
    · simp [hp, List.append_assoc]
    · simp [hp]

theorem buildStep_vertices_subset (avoid : List GraphId) (st : BuildState)
    (e : CandidateEdge) (w : CPVertex) (h : w ∈ st.g.vertices) :
    w ∈ (buildStep avoid st e).g.vertices := by
  unfold buildStep
  split
  · exact h
  · split
    · exact h
    · dsimp only
      rw [addEdge_vertices]
      exact addVertex_vertices_subset _ _ _ (addVertex_vertices_subset _ _ _ h)

theorem passesFilters_split (avoid : List GraphId) (e : CandidateEdge)
    (hp : passesFilters avoid e = true) : e.forward = true ∧ e.id ∉ avoid := by
  simpa only [passesFilters, Bool.and_eq_true, Bool.not_eq_true',
    decide_eq_false_iff_not] using hp

theorem buildStep_adds_endpoints (avoid : List GraphId) (st : BuildState)
    (e : CandidateEdge) (hp : passesFilters avoid e = true) :
    (⟨e.start_node⟩ : CPVertex) ∈ (buildStep avoid st e).g.vertices ∧
    (⟨e.end_node⟩ : CPVertex) ∈ (buildStep avoid st e).g.vertices := by
  obtain ⟨hf, ha⟩ := passesFilters_split avoid e hp
  unfold buildStep
  rw [if_neg (by simp [hf]), if_neg ha]
  dsimp only
  rw [addEdge_vertices]
  constructor
  · exact addVertex_vertices_subset _ _ _ (addVertex_mem_self _ _)
  · exact addVertex_mem_self _ _

theorem buildGraph_vertices_aux (avoid : List GraphId) :
    ∀ (cs : List CandidateEdge) (st : BuildState) (w : CPVertex),
      w ∈ st.g.vertices → w ∈ (cs.foldl (buildStep avoid) st).g.vertices := by
  intro cs
  induction cs with
  | nil => intro st w h; simpa using h
  | cons e cs ih =>
    intro st w h
    rw [List.foldl_cons]
    exact ih _ _ (buildStep_vertices_subset _ _ _ _ h)

theorem buildGraph_mem_endpoints_aux (avoid : List GraphId) :
    ∀ (cs : List CandidateEdge) (st : BuildState) (e : CandidateEdge),
      e ∈ cs → passesFilters avoid e = true →
      (⟨e.start_node⟩ : CPVertex) ∈ (cs.foldl (buildStep avoid) st).g.vertices ∧
      (⟨e.end_node⟩ : CPVertex) ∈ (cs.foldl (buildStep avoid) st).g.vertices := by
  intro cs
  induction cs with
  | nil => intro st e h; exact absurd h (List.not_mem_nil e)
  | cons a cs ih =>
    intro st e he hp
    rw [List.foldl_cons]
    rcases List.mem_cons.mp he with rfl | he'
    · exact ⟨buildGraph_vertices_aux avoid cs _ _ ((buildStep_adds_endpoints avoid st e hp).1),
        buildGraph_vertices_aux avoid cs _ _ ((buildStep_adds_endpoints avoid st e hp).2)⟩
    · exact ih _ e he' hp

theorem buildStep_found (avoid : List GraphId) (st : BuildState) (e : CandidateEdge)
    (h : st.originNodeFound = true) :
    (buildStep avoid st e).originNodeFound = true ∧
    (buildStep avoid st e).originVertex = st.originVertex := by
  unfold buildStep
  split
  · exact ⟨h, rfl⟩
  · split
    · exact ⟨h, rfl⟩
    · dsimp only
      rw [h]
      simp

theorem foldl_found (avoid : List GraphId) :
    ∀ (cs : List CandidateEdge) (st : BuildState), st.originNodeFound = true →
      (cs.foldl (buildStep avoid) st).originVertex = st.originVertex ∧
      (cs.foldl (buildStep avoid) st).originNodeFound = true := by
  intro cs
  induction cs with
  | nil => intro st h; exact ⟨rfl, h⟩
  | cons e cs ih =>
    intro st h
    rw [List.foldl_cons]
    obtain ⟨h1, h2⟩ := buildStep_found avoid st e h
    obtain ⟨h3, h4⟩ := ih _ h1
    exact ⟨h3.trans h2, h4⟩

theorem buildStep_origin_new (avoid : List GraphId) (st : BuildState)
    (e : CandidateEdge) (hp : passesFilters avoid e = true)
    (h : st.originNodeFound = false) :
    (buildStep avoid st e).originNodeFound = true ∧
    (buildStep avoid st e).originVertex = ⟨e.start_node⟩ := by
  obtain ⟨hf, ha⟩ := passesFilters_split avoid e hp
  unfold buildStep
  rw [if_neg (by simp [hf]), if_neg ha]
  dsimp only
  rw [h]
  simp

theorem buildStep_skip (avoid : List GraphId) (st : BuildState) (e : CandidateEdge)
    (hp : passesFilters avoid e = false) : buildStep avoid st e = st := by
  unfold buildStep
  by_cases hf : e.forward
  · have ha : e.id ∈ avoid := by
      simpa [passesFilters, hf] using hp
    rw [if_neg (by simp [hf]), if_pos ha]
  · rw [if_pos (by simp [hf])]

theorem foldl_origin_char (avoid : List GraphId) :
    ∀ (cs : List CandidateEdge) (st : BuildState), st.originNodeFound = false →
      (cs.foldl (buildStep avoid) st).originVertex =
        (match cs.find? (passesFilters avoid) with
         | some e => (⟨e.start_node⟩ : CPVertex)
         | none => st.originVertex) := by
  intro cs
  induction cs with
  | nil => intro st h; rfl
  | cons e cs ih =>
    intro st h
    rw [List.foldl_cons]
    by_cases hp : passesFilters avoid e
    · rw [List.find?_cons_of_pos _ hp]
      obtain ⟨h1, h2⟩ := buildStep_origin_new avoid st e hp h
      rw [(foldl_found avoid cs _ h1).1, h2]
    · rw [List.find?_cons_of_neg _ (by simpa using hp),
        buildStep_skip avoid st e (by simpa using hp)]
      exact ih st h

/-- C4: a candidate segment is excluded from the constructed multigraph if
and only if it is not forward-traversable or its id is in the avoid set;
each segment passing both checks contributes exactly one directed edge from
its start node to its end node (the edge list of the built graph is exactly
the filtered candidate list, mapped to its graph entries, in order and with
multiplicity), and both of its endpoints are present as vertices. -/
theorem segment_filtering_iff (avoid : List GraphId) (cs : List CandidateEdge) :
    ((buildGraph avoid cs).g.edges = (cs.filter (passesFilters avoid)).map edgeEntry) ∧
    (∀ e, e ∈ cs → passesFilters avoid e = true →
      (⟨e.start_node⟩ : CPVertex) ∈ (buildGraph avoid cs).g.vertices ∧
      (⟨e.end_node⟩ : CPVertex) ∈ (buildGraph avoid cs).g.vertices) ∧
    (∀ e : CandidateEdge, passesFilters avoid e = false ↔
      (e.forward = false ∨ e.id ∈ avoid)) := by
  refine ⟨?_, ?_, ?_⟩
  · have h := buildGraph_edges_aux avoid cs
      ⟨ChinesePostmanGraph.empty, false, CPVertex.default⟩
    simpa [buildGraph, ChinesePostmanGraph.empty] using h
  · intro e he hp
    exact buildGraph_mem_endpoints_aux avoid cs _ e he hp
  · intro e
    cases hf : e.forward <;> simp [passesFilters, hf]

/-- Witness for C4 at a concrete candidate list: one passing candidate, one
avoided candidate and one reverse-one-way candidate; only the passing one
contributes an edge, its endpoints are vertices, and the avoided candidate
is excluded via its membership in the avoid set. -/
theorem segment_filtering_iff_witness :
    (buildGraph exAvoid exCandidates).g.edges = [edgeEntry exCand1] ∧
    (⟨exCand1.start_node⟩ : CPVertex) ∈ (buildGraph exAvoid exCandidates).g.vertices ∧
    passesFilters exAvoid exCand2 = false := by
  obtain ⟨h1, h2, h3⟩ := segment_filtering_iff exAvoid exCandidates
  refine ⟨h1.trans (by rfl), ?_, ?_⟩
  · exact (h2 exCand1 (by simp [exCandidates]) (by rfl)).1
  · exact (h3 exCand2).mpr (Or.inr (by simp [exAvoid, exCand2]))

/-- C9: the origin vertex from which the Eulerian circuit is computed is
the start node of the first candidate segment that passes the filtering
checks, in candidate iteration order; when no candidate passes, it is the
default-constructed vertex.  (The balanced branch hands exactly
(buildGraph avoid cs).originVertex to computeIdealEulerCycle.) -/
theorem origin_vertex_first_passing_segment (avoid : List GraphId)
    (cs : List CandidateEdge) :
    (buildGraph avoid cs).originVertex =
      (match cs.find? (passesFilters avoid) with
       | some e => (⟨e.start_node⟩ : CPVertex)
       | none => CPVertex.default) := by
  have h := foldl_origin_char avoid cs
    ⟨ChinesePostmanGraph.empty, false, CPVertex.default⟩ rfl
  simpa [buildGraph] using h

/-- C1 counterexample: a concrete run in which the recost service raises
after delivering one label.  buildPath logs the failure but returns
normally, emitting the partial one-label path — the materialization does
not fail. -/
theorem recost_failure_swallowed_cex :
    buildPath exLocB exLocB [gid1, gid2] exRecostFail =
      .ok ⟨[label_cb exLabel1], true⟩ ∧
    [label_cb exLabel1] ≠ ([] : List PathInfo) :=
  ⟨rfl, by simp⟩

/-- C1 amended: when the recost service raises mid-materialization, the
failure is logged, but buildPath swallows the exception and completes,
emitting the (possibly partial) path accumulated before the failure; the
materialization does not fail. -/
theorem buildPath_recost_failure_logged_not_fatal
    (origin dest : Location) (path_edges : List GraphId)
    (rc : List GraphId → Rat → Rat → List EdgeLabel × Bool)
    (f b : GraphId) (sp tp : Rat) (labels : List EdgeLabel)
    (hf : path_edges.head? = some f)
    (hsp : find_percent_along origin f = some sp)
    (hb : path_edges.getLast? = some b)
    (htp : find_percent_along dest b = some tp)
    (hrc : rc path_edges sp tp = (labels, false)) :
    buildPath origin dest path_edges rc = .ok ⟨labels.map label_cb, true⟩ := by
  unfold buildPath
  rw [hf]
  dsimp only
  rw [hsp]
  dsimp only
  rw [hb]
  dsimp only
  rw [htp]
  simp [hrc]

/-- Witness for the amended C1 at the concrete counterexample data. -/
theorem buildPath_recost_failure_logged_not_fatal_witness :
    ([gid1, gid2].head? = some gid1 ∧
     find_percent_along exLocB gid1 = some 0 ∧
     [gid1, gid2].getLast? = some gid2 ∧
     find_percent_along exLocB gid2 = some 1 ∧
     exRecostFail [gid1, gid2] 0 1 = ([exLabel1], false)) ∧
    buildPath exLocB exLocB [gid1, gid2] exRecostFail =
      .ok ⟨[exLabel1].map label_cb, true⟩ :=
  ⟨⟨rfl, rfl, rfl, rfl, rfl⟩,
   buildPath_recost_failure_logged_not_fatal exLocB exLocB [gid1, gid2]
     exRecostFail gid1 gid2 0 1 [exLabel1] rfl rfl rfl rfl rfl⟩

/-- C5: for a non-empty edge sequence, if the origin location has no
candidate path edge matching the first edge id, or the destination location
has none matching the last edge id, materialization fails immediately with
the corresponding logic error — for every possible behaviour of the recost
service, i.e. before the recost service is invoked — and no partial path is
returned. -/
theorem buildPath_missing_candidate_fails
    (origin dest : Location) (path_edges : List GraphId) (f b : GraphId)
    (hf : path_edges.head? = some f) (hb : path_edges.getLast? = some b)
    (h : find_percent_along origin f = none ∨ find_percent_along dest b = none) :
    ∀ rc, buildPath origin dest path_edges rc = .error .originCandidateMissing ∨
      buildPath origin dest path_edges rc = .error .destinationCandidateMissing := by
  intro rc
  unfold buildPath
  rw [hf]
  dsimp only
  rcases h with h | h
  · rw [h]
    left
    rfl
  · cases hov : find_percent_along origin f with
    | none =>
      left
      rfl
    | some sp =>
      dsimp only
      rw [hb]
      dsimp only
      rw [h]
      right
      rfl

/-- Witness for C5: the destination location has no candidate for the last
edge of a concrete two-edge sequence, so materialization fails with the
destination logic error, independently of the recost handle. -/
theorem buildPath_missing_candidate_fails_witness :
    ([gid1, gid2].head? = some gid1 ∧ [gid1, gid2].getLast? = some gid2 ∧
     (find_percent_along exLocA gid1 = none ∨ find_percent_along exLocA gid2 = none)) ∧
    (buildPath exLocA exLocA [gid1, gid2] exRecostOk = .error .originCandidateMissing ∨
     buildPath exLocA exLocA [gid1, gid2] exRecostOk = .error .destinationCandidateMissing) :=
  ⟨⟨rfl, rfl, Or.inr rfl⟩,
   buildPath_missing_candidate_fails exLocA exLocA [gid1, gid2] gid1 gid2
     rfl rfl (Or.inr rfl) exRecostOk⟩

/-- C10: buildPath's unguarded front/back accesses: in this total
embedding, the error branch of the front/back vector accesses is reachable
exactly when the edge sequence is empty — for every origin, destination and
recost behaviour. -/
theorem buildPath_empty_access_iff
    (origin dest : Location) (path_edges : List GraphId)
    (rc : List GraphId → Rat → Rat → List EdgeLabel × Bool) :
    (buildPath origin dest path_edges rc = .error .vectorFrontOnEmpty ∨
     buildPath origin dest path_edges rc = .error .vectorBackOnEmpty) ↔
      path_edges = [] := by
  constructor
  · intro h
    cases path_edges with
    | nil => rfl
    | cons a as =>
      exfalso
      unfold buildPath at h
      rw [List.head?_cons] at h
      dsimp only at h
      cases hov : find_percent_along origin a with
      | none =>
        rw [hov] at h
        rcases h with h | h <;> simp at h
      | some sp =>
        rw [hov] at h
        dsimp only at h
        cases hb : (a :: as).getLast? with
        | none =>
          exact absurd (List.getLast?_eq_none_iff.mp hb) (List.cons_ne_nil a as)
        | some b =>
          rw [hb] at h
          dsimp only at h
          cases htp : find_percent_along dest b with
          | none =>
            rw [htp] at h
            rcases h with h | h <;> simp at h
          | some tp =>
            rw [htp] at h
            rcases h with h | h <;> simp at h
  · intro h
    subst h
    left
    rfl

/-- Witness for C10: on the empty sequence the front access error branch is
taken. -/
theorem buildPath_empty_access_iff_witness :
    buildPath exLocA exLocA [] exRecostOk = .error .vectorFrontOnEmpty ∨
    buildPath exLocA exLocA [] exRecostOk = .error .vectorBackOnEmpty :=
  (buildPath_empty_access_iff exLocA exLocA [] exRecostOk).mpr rfl

theorem edge_cb_run_fst (path_edges : List GraphId) :
    ∀ n, (edge_cb_run path_edges n).1 = min n path_edges.length := by
  intro n
  induction n with
  | zero => simp [edge_cb_run]
  | succ n ih =>
    simp only [edge_cb_run]
    rw [ih, edge_cb]
    split
    · next h =>
      dsimp only
      omega
    · next h =>
      dsimp only
      omega

/-- C6: across successive calls, the edge supplier edge_cb yields exactly
the ids of the input sequence, in order and each exactly once; once the
sequence is exhausted every further call returns the invalid/default
GraphId sentinel.  The list of ids yielded by the first n calls is the
first n input ids followed by sentinels. -/
theorem edge_cb_yields_sequence_then_sentinel (path_edges : List GraphId) (n : Nat) :
    (edge_cb_run path_edges n).2 =
      path_edges.take n ++ List.replicate (n - path_edges.length) GraphId.invalid := by
  induction n with
  | zero => simp [edge_cb_run]
  | succ n ih =>
    simp only [edge_cb_run]
    rw [ih, edge_cb_run_fst, edge_cb]
    by_cases h : n < path_edges.length
    · rw [if_neg (by omega)]
      dsimp only
      have hmin : min n path_edges.length = n := by omega
      rw [hmin]
      have h0 : n - path_edges.length = 0 := by omega
      have h1 : n + 1 - path_edges.length = 0 := by omega
      rw [h0, h1]
      simp only [List.replicate_zero, List.append_nil]
      rw [List.getD_eq_getElem _ _ h]
      exact List.take_concat_get' _ _ h
    · rw [if_pos (by omega)]
      dsimp only
      have htk : path_edges.take n = path_edges := List.take_of_length_le (by omega)
      have htk1 : path_edges.take (n + 1) = path_edges := List.take_of_length_le (by omega)
      have h1 : n + 1 - path_edges.length = (n - path_edges.length) + 1 := by omega
      rw [htk, htk1, h1, List.replicate_succ']
      simp [List.append_assoc]

theorem partition_aux (n2p : GraphId → PointLL) :
    ∀ (unb : List (GraphId × Int)) (acc : List PointLL × List PointLL),
      unb.foldl (partitionStep n2p) acc =
        (acc.1 ++ (unb.filter (fun v => decide (0 < v.2))).map (fun v => n2p v.1),
         acc.2 ++ (unb.filter (fun v => decide (v.2 < 0))).map (fun v => n2p v.1)) := by
  intro unb
  induction unb with
  | nil => intro acc; simp
  | cons v unb ih =>
    intro acc
    rw [List.foldl_cons, ih]
    unfold partitionStep
    by_cases h1 : 0 < v.2
    · rw [if_pos h1]
      have h2 : ¬ v.2 < 0 := by omega
      simp [List.filter_cons, h1, h2, List.append_assoc]
    · rw [if_neg h1]
      by_cases h2 : v.2 < 0
      · rw [if_pos h2]
        simp [List.filter_cons, h1, h2, List.append_assoc]
      · rw [if_neg h2]
        simp [List.filter_cons, h1, h2]

/-- C2: when the constructed multigraph has at least one unbalanced vertex,
the solve produces as its output the raw distance matrix computed between
the surplus vertices (positive balance, passed as the matrix sources) and
the deficit vertices (negative balance, passed as the matrix targets), for
every possible circuit builder and recost service — i.e. it builds no
Eulerian circuit and no path on that run. -/
theorem chinese_postman_unbalanced_matrix
    (correlated : List Location) (avoid : List GraphId) (cs : List CandidateEdge)
    (n2p : GraphId → PointLL)
    (euler : ChinesePostmanGraph → CPVertex → List GraphId)
    (matrix : List PointLL → List PointLL → String)
    (rc : List GraphId → Rat → Rat → List EdgeLabel × Bool)
    (o d : Location)
    (hloc : selectLocations correlated = some (o, d))
    (hunb : (buildGraph avoid cs).g.getUnbalancedVertices ≠ []) :
    chinese_postman correlated avoid cs n2p euler matrix rc =
      some (.matrixResult
        (((buildGraph avoid cs).g.getUnbalancedVertices.filter
            (fun v => decide (0 < v.2))).map (fun v => n2p v.1))
        (((buildGraph avoid cs).g.getUnbalancedVertices.filter
            (fun v => decide (v.2 < 0))).map (fun v => n2p v.1))
        (matrix
          (((buildGraph avoid cs).g.getUnbalancedVertices.filter
              (fun v => decide (0 < v.2))).map (fun v => n2p v.1))
          (((buildGraph avoid cs).g.getUnbalancedVertices.filter
              (fun v => decide (v.2 < 0))).map (fun v => n2p v.1)))) := by
  have hlen : ¬ ((buildGraph avoid cs).g.getUnbalancedVertices.length = 0) := by
    simpa [List.length_eq_zero] using hunb
  simp only [chinese_postman, hloc]
  rw [if_neg hlen]
  simp only [partitionUnbalanced, computeFloydWarshall]
  rw [partition_aux]
  simp

/-- Witness for C2: one surviving one-way candidate produces one surplus
and one deficit vertex; the solve returns the matrix diagnostic between
them. -/
theorem chinese_postman_unbalanced_matrix_witness :
    (selectLocations [exLocA, exLocB] = some (exLocB, exLocB) ∧
     (buildGraph [] [exCand1]).g.getUnbalancedVertices ≠ []) ∧
    chinese_postman [exLocA, exLocB] [] [exCand1] exN2P exEuler exMatrix exRecostOk =
      some (.matrixResult [exPoint] [exPoint] (exMatrix [exPoint] [exPoint])) :=
  ⟨⟨rfl, by decide⟩,
   (chinese_postman_unbalanced_matrix [exLocA, exLocB] [] [exCand1] exN2P
     exEuler exMatrix exRecostOk exLocB exLocB rfl (by decide)).trans (by rfl)⟩

/-- C3: when the constructed multigraph is balanced (getUnbalancedVertices
empty), the solve computes the Eulerian circuit from the origin vertex and
materializes the path through buildPath, and the result is the same for
every matrix service — i.e. the Balance Resolver / all-pairs
distance-matrix service (computeFloydWarshall) is never invoked on that
run. -/
theorem chinese_postman_balanced_path
    (correlated : List Location) (avoid : List GraphId) (cs : List CandidateEdge)
    (n2p : GraphId → PointLL)
    (euler : ChinesePostmanGraph → CPVertex → List GraphId)
    (matrix : List PointLL → List PointLL → String)
    (rc : List GraphId → Rat → Rat → List EdgeLabel × Bool)
    (o d : Location)
    (hloc : selectLocations correlated = some (o, d))
    (hbal : (buildGraph avoid cs).g.getUnbalancedVertices.length = 0) :
    chinese_postman correlated avoid cs n2p euler matrix rc =
      some (.pathResult
        (euler (buildGraph avoid cs).g (buildGraph avoid cs).originVertex)
        (buildPath o d
          (euler (buildGraph avoid cs).g (buildGraph avoid cs).originVertex) rc)) := by
  simp only [chinese_postman, hloc]
  rw [if_pos hbal]

/-- Witness for C3: an empty candidate list yields a balanced (empty)
graph; the solve goes through the circuit builder and buildPath. -/
theorem chinese_postman_balanced_path_witness :
    (selectLocations [exLocA, exLocB] = some (exLocB, exLocB) ∧
     (buildGraph [] []).g.getUnbalancedVertices.length = 0) ∧
    chinese_postman [exLocA, exLocB] [] [] exN2P exEuler exMatrix exRecostOk =
      some (.pathResult
        (exEuler (buildGraph [] []).g (buildGraph [] []).originVertex)
        (buildPath exLocB exLocB
          (exEuler (buildGraph [] []).g (buildGraph [] []).originVertex) exRecostOk)) :=
  ⟨⟨rfl, rfl⟩,
   chinese_postman_balanced_path [exLocA, exLocB] [] [] exN2P exEuler exMatrix
     exRecostOk exLocB exLocB rfl rfl⟩

/-- C7: when the excluded-region (avoid_polygons) specification exceeds the
configured limit, the request fails with the structured error of numeric
code 450, before any graph construction and regardless of the rest of the
request (all downstream inputs are universally quantified and do not affect
the result). -/
theorem avoid_polygons_limit_error_450
    (max_length total_length : Rat) (correlated : List Location)
    (avoid : List GraphId) (cs : List CandidateEdge)
    (n2p : GraphId → PointLL)
    (euler : ChinesePostmanGraph → CPVertex → List GraphId)
    (matrix : List PointLL → List PointLL → String)
    (rc : List GraphId → Rat → Rat → List EdgeLabel × Bool)
    (h : max_length < total_length) :
    chinese_postman_request max_length total_length correlated avoid cs n2p
      euler matrix rc = .error ⟨450⟩ := by
  simp only [chinese_postman_request, check_avoid_polygons_length]
  rw [if_pos h]

/-- Witness for C7 at a concrete limit and over-limit length. -/
theorem avoid_polygons_limit_error_450_witness :
    (1 : Rat) < 2 ∧
    chinese_postman_request 1 2 [] [] [] exN2P exEuler exMatrix exRecostOk =
      .error ⟨450⟩ :=
  ⟨by norm_num,
   avoid_polygons_limit_error_450 1 2 [] [] [] exN2P exEuler exMatrix exRecostOk
     (by norm_num)⟩

/-- C8: the Location bound as origin and the Location bound as destination
are the same element — the second entry of the request's locations list —
because origin and destination are both pointers to the same iterator,
advanced once before either is dereferenced; the first listed location is
never the one selected. -/
theorem origin_destination_same_second_location
    (correlated : List Location) (o d : Location)
    (h : selectLocations correlated = some (o, d)) :
    o = d ∧ correlated[1]? = some o := by
  simp only [selectLocations] at h
  cases hx : correlated[1]? with
  | none =>
    rw [hx] at h
    exact absurd h (by simp)
  | some x =>
    rw [hx] at h
    dsimp only at h
    simp only [Option.some.injEq, Prod.mk.injEq] at h
    obtain ⟨h1, h2⟩ := h
    subst h1
    subst h2
    exact ⟨rfl, rfl⟩

/-- Witness for C8 at a concrete two-location request with distinct
locations: both selected locations are the second entry. -/
theorem origin_destination_same_second_location_witness :
    selectLocations [exLocA, exLocB] = some (exLocB, exLocB) ∧
    (exLocB = exLocB ∧ [exLocA, exLocB][1]? = some exLocB) :=
  ⟨rfl,
   origin_destination_same_second_location [exLocA, exLocB] exLocB exLocB rfl⟩

end ValhallaCP
